import Mathlib

/-!
Shallow embedding of `src/index.js` of the WordPress dependencies report
action.  JavaScript numbers are modelled as exact rationals, JS strings as
Lean strings (with `String.prototype.startsWith` modelled character-wise),
the filesystem as a partial map from paths to file contents, the size-limit
measurer as an uninterpreted function from paths to byte counts, and the
comment-hosting backend by the call the publisher issues to it.
-/

namespace WPDepReport

/-- The fixed heading marker of the report comment (src/index.js line 12). -/
def HEADING : String := "# WordPress Dependencies Report\n\n"

/-- JavaScript Math.sign restricted to rational inputs. -/
def jsSign (q : ℚ) : Int := if 0 < q then 1 else if q < 0 then -1 else 0

/-- Decimal rendering of the number n/100 the way a JavaScript template
literal prints it: integer part, then the fractional part with trailing
zeros removed and no fractional part at all for whole values. -/
def displayHundredths (n : Nat) : String :=
  let intPart := toString (n / 100)
  let frac := n % 100
  if frac = 0 then intPart
  else if frac % 10 = 0 then intPart ++ "." ++ toString (frac / 10)
  else if frac < 10 then intPart ++ ".0" ++ toString frac
  else intPart ++ "." ++ toString frac

/-- Rendering of the signed value k/100 as JavaScript prints it. -/
def formatHundredths (k : Int) : String :=
  (if k < 0 then "-" else "") ++ displayHundredths k.natAbs

/-- Exact-rational idealization of computePercentageDiff
(src/index.js lines 14-32): the double arithmetic of the source is replaced
by exact rational arithmetic, and the JS value
`(Math.sign(value) * Math.ceil(Math.abs(value) * 100)) / 100` is represented
by its numerator over 100 and rendered by `formatHundredths`.  It agrees
with the program whenever the double computation of `value` is exact (in
particular everywhere `newSize = oldSize` or `oldSize = 0`);
`jsComputePercentageDiffFP` below models the double arithmetic bit-exactly
and is used where rounding matters. -/
def computePercentageDiff (oldSize newSize : Nat) : String :=
  if oldSize = 0 then
    "+100% 🔼"
  else
    let value : ℚ := ((newSize : ℚ) - (oldSize : ℚ)) / (oldSize : ℚ) * 100
    let formatted : Int := jsSign value * Int.ceil (|value| * 100)
    if 0 < value then
      "+" ++ formatHundredths formatted ++ "% 🔼"
    else if value = 0 then
      formatHundredths formatted ++ "%"
    else
      formatHundredths formatted ++ "% ⬇️"

/-- Integer form of the numerator over 100 of the JS value
`Math.sign(value) * Math.ceil(Math.abs(value) * 100) / 100` computed by
computePercentageDiff, used to evaluate it at concrete inputs.  The middle
branch is the sign-zero case. -/
def pctNumerator (oldSize newSize : Nat) : Int :=
  let D : Int := (newSize : Int) - (oldSize : Int)
  let c : Int := -(-((D.natAbs * 10000 : Nat) : Int) / (oldSize : Int))
  if 0 < D then c else if D < 0 then -c else 0

/-- Restatement of the percentage formula in the words of the specification
(the non-zero-baseline branch): compute the raw relative change, round the
magnitude up to 2 decimal places, reapply the original sign, format with the
up-arrow for positive, bare percent for zero, down-arrow for negative.  Used
only to compare computePercentageDiff against the specification. -/
def computePercentageDiffSpec (oldSize newSize : Nat) : String :=
  let raw : ℚ := ((newSize : ℚ) - (oldSize : ℚ)) / (oldSize : ℚ) * 100
  let magnitude : Nat := (Int.ceil (|raw| * 100)).toNat
  if 0 < raw then "+" ++ displayHundredths magnitude ++ "% 🔼"
  else if raw = 0 then displayHundredths magnitude ++ "%"
  else "-" ++ displayHundredths magnitude ++ "% ⬇️"

/-- Round-to-nearest, ties-to-even integer rounding of the fraction a/b
(b positive): the rounding mode of every IEEE-754 binary64 operation. -/
def roundDiv (a b : Nat) : Nat :=
  let q := a / b
  let r := a % b
  if 2 * r < b then q
  else if b < 2 * r then q + 1
  else if q % 2 = 0 then q else q + 1

/-- Bit length of the second argument, with structural fuel (call with the
number itself as fuel). -/
def bitLen : Nat → Nat → Nat
  | 0, _ => 0
  | fuel + 1, x => if x = 0 then 0 else bitLen fuel (x / 2) + 1

/-- round(a / (b * 2^e)) to nearest even, for an integer binary scale e. -/
def scaledRound (a b : Nat) (e : Int) : Nat :=
  if 0 ≤ e then roundDiv a (b * 2 ^ e.toNat)
  else roundDiv (a * 2 ^ (-e).toNat) b

/-- The IEEE-754 binary64 value nearest to the positive fraction a/b, as
mantissa and binary exponent (2^52 ≤ mantissa < 2^53).  Covers the normal
range, which byte sizes and their ratios never leave. -/
def roundPosToFP (a b : Nat) : Nat × Int :=
  let e0 : Int := (bitLen a a : Int) - (bitLen b b : Int) - 53
  let m0 := scaledRound a b e0
  if m0 < 2 ^ 53 then (m0, e0) else (scaledRound a b (e0 + 1), e0 + 1)

/-- The exact fraction a binary64 value denotes. -/
def fpFrac (me : Nat × Int) : Nat × Nat :=
  if 0 ≤ me.2 then (me.1 * 2 ^ me.2.toNat, 1) else (me.1, 2 ^ (-me.2).toNat)

/-- Correctly rounded binary64 division of positive naturals, as the exact
fraction the resulting double denotes. -/
def fpDivPos (a b : Nat) : Nat × Nat := fpFrac (roundPosToFP a b)

/-- Correctly rounded binary64 multiplication of a positive double (as
exact fraction) by a natural constant. -/
def fpMulPos (q : Nat × Nat) (c : Nat) : Nat × Nat := fpFrac (roundPosToFP (q.1 * c) q.2)

/-- Ceiling of a positive exact fraction: Math.ceil on the double. -/
def ceilFrac (q : Nat × Nat) : Nat := (q.1 + q.2 - 1) / q.2

/-- The signed hundredths numerator the JS double pipeline of
computePercentageDiff produces: Math.sign(value) * Math.ceil(Math.abs(value)
* 100) with value computed in doubles. -/
def fpPctNumerator (oldSize newSize : Nat) : Int :=
  let diff : Int := (newSize : Int) - (oldSize : Int)
  let c : Nat := ceilFrac (fpMulPos (fpMulPos (fpDivPos diff.natAbs oldSize) 100) 100)
  if 0 < diff then (c : Int) else if diff < 0 then -(c : Int) else 0

/-- Bit-exact IEEE-754 binary64 model of computePercentageDiff
(src/index.js lines 14-32): `value = ((newSize - oldSize) / oldSize) * 100`
with the subtraction exact (byte sizes are far below 2^53), the division
and the two multiplications correctly rounded binary64 operations (nearest,
ties to even; binary64 rounding is sign-symmetric, so the magnitude is
computed and the sign reapplied), Math.abs and Math.ceil exact, and the
final `sign * ceil / 100` printed by formatHundredths.  The sign tests on
`value` coincide with the sign of newSize - oldSize because a positive
quotient of in-range sizes never underflows to zero. -/
def jsComputePercentageDiffFP (oldSize newSize : Nat) : String :=
  if oldSize = 0 then
    "+100% 🔼"
  else
    let diff : Int := (newSize : Int) - (oldSize : Int)
    let c : Nat := ceilFrac (fpMulPos (fpMulPos (fpDivPos diff.natAbs oldSize) 100) 100)
    if 0 < diff then
      "+" ++ formatHundredths (c : Int) ++ "% 🔼"
    else if diff = 0 then
      "0%"
    else
      formatHundredths (-(c : Int)) ++ "% ⬇️"

/-- Result of computeSizeDiff (src/index.js lines 34-37).  The source builds
`prettyBytes(newSize - oldSize, {signed: true}) ++ " ( " ++ pct ++ " )"`;
prettyBytes is an external rendering library, so the result is modelled as
the signed byte delta handed to it together with the percentage string. -/
structure SizeDiff where
  byteDelta : Int
  percentage : String
  deriving DecidableEq

/-- Model of computeSizeDiff (src/index.js lines 34-37). -/
def computeSizeDiff (oldSize newSize : Nat) : SizeDiff :=
  ⟨(newSize : Int) - (oldSize : Int), computePercentageDiff oldSize newSize⟩

/-- A filesystem: paths to contents, none when a read fails. -/
abbrev Fs := String → Option String

/-- The external size measurer (size-limit with the file plugin): byte
count of the file at a path. -/
abbrev Measurer := String → Nat

/-- A parsed manifest: artifact name to its dependencies list. -/
abbrev Manifest := List (String × List String)

/-- Model of readFile (src/index.js lines 98-104): a read that yields
defaultContent when the file is absent or unreadable. -/
def readFileD (fs : Fs) (filePath defaultContent : String) : String :=
  (fs filePath).getD defaultContent

/-- Model of Node path.join for a folder and a file name. -/
def pathJoin (assetsFolder jsAsset : String) : String :=
  assetsFolder ++ "/" ++ jsAsset

/-- The sibling stylesheet path of a path ending in "-style.js": the
the `jsPath.replace` in the source of the end-anchored "-style.js" regex with
"-style.css" (src/index.js line 120). -/
def cssSiblingPath (jsPath : String) : String :=
  jsPath.dropRight 9 ++ "-style.css"

/-- Character-wise model of JS String.prototype.endsWith. -/
def jsEndsWith (s p : String) : Bool :=
  p.data.isSuffixOf s.data

/-- Model of determineAssetPath (src/index.js lines 115-128). -/
def determineAssetPath (fs : Fs) (assetsFolder jsAsset : String) : String :=
  let jsPath := pathJoin assetsFolder jsAsset
  if jsEndsWith jsAsset "-style.js" then
    let jsFile := readFileD fs jsPath ""
    if jsFile.length = 0 then
      let cssPath := cssSiblingPath jsPath
      let cssFile := readFileD fs cssPath ""
      if cssFile.length > 0 then cssPath else jsPath
    else jsPath
  else jsPath

/-- The fallback condition of determineAssetPath in the words of the
specification: the artifact name carries the style-shim suffix, the shim file is
empty or absent (the read with default "" yields ""), and the sibling
stylesheet exists and is non-empty. -/
def styleFallbackCond (fs : Fs) (assetsFolder jsAsset : String) : Prop :=
  jsEndsWith jsAsset "-style.js" = true ∧
  readFileD fs (pathJoin assetsFolder jsAsset) "" = "" ∧
  readFileD fs (cssSiblingPath (pathJoin assetsFolder jsAsset)) "" ≠ ""

instance styleFallbackCondDec (fs : Fs) (assetsFolder jsAsset : String) :
    Decidable (styleFallbackCond fs assetsFolder jsAsset) := by
  unfold styleFallbackCond
  infer_instance

/-- Rendering of a dependency list into the table cell
(src/index.js lines 166-171). -/
def renderDeps (deps : List String) : String :=
  if deps.length = 0 then "" else "`" ++ String.intercalate "`, `" deps ++ "`"

/-- Diff data of one artifact as computed inside the run loop
(src/index.js lines 154-205).  `oldMeasured` records whether the size
measurer was invoked on the old side for this artifact. -/
structure RowData where
  added : List String
  removed : List String
  newSize : Nat
  oldSize : Nat
  oldMeasured : Bool
  deriving DecidableEq

/-- Model of one iteration of the run loop body (src/index.js lines 154-196):
dependency diffing, path resolution and the two size measurements, the old
side measured only when the artifact exists in the old manifest. -/
def computeRow (fs : Fs) (measure : Measurer) (oldAssetsFolder newAssetsFolder : String)
    (oldAssets : Manifest) (asset : String) (dependencies : List String) : RowData :=
  let newAssetPath := determineAssetPath fs newAssetsFolder asset
  let oldAssetPath := determineAssetPath fs oldAssetsFolder asset
  let oldDependencies := (List.lookup asset oldAssets).getD []
  let added := dependencies.filter fun dependency => !(oldDependencies.contains dependency)
  let removed := oldDependencies.filter fun dependency => !(dependencies.contains dependency)
  match List.lookup asset oldAssets with
  | some _ => ⟨added, removed, measure newAssetPath, measure oldAssetPath, true⟩
  | none => ⟨added, removed, measure newAssetPath, 0, false⟩

/-- The skip test of src/index.js lines 198-201, phrased as row inclusion:
the line is documented unless sizes coincide and both rendered dependency
cells are empty. -/
def includeRow (r : RowData) : Bool :=
  !((r.newSize == r.oldSize) && ((renderDeps r.added).length == 0)
    && ((renderDeps r.removed).length == 0))

/-- The rows accumulated into reportContent over the whole loop
(src/index.js lines 152-206), keyed by artifact name. -/
def reportRows (fs : Fs) (measure : Measurer) (oldAssetsFolder newAssetsFolder : String)
    (oldAssets : Manifest) (newEntries : Manifest) : List (String × RowData) :=
  newEntries.filterMap fun e =>
    let r := computeRow fs measure oldAssetsFolder newAssetsFolder oldAssets e.1 e.2
    if includeRow r then some (e.1, r) else none

/-- A comment as returned by the backend listing (src/index.js lines 45-58). -/
structure Comment where
  id : Nat
  body : String
  deriving DecidableEq

/-- Character-wise model of JS String.prototype.startsWith. -/
def jsStartsWith (s p : String) : Bool :=
  p.data.isPrefixOf s.data

/-- Model of fetchPreviousComment (src/index.js lines 40-59): the first
comment in the listing order of the backend whose body starts with HEADING
(the trailing `!c ? null : c` of the source is the identity on this). -/
def fetchPreviousComment (commentList : List Comment) : Option Comment :=
  commentList.find? fun comment => jsStartsWith comment.body HEADING

/-- The backend call postOrEditComment decides on (src/index.js lines 67-96). -/
inductive PublishAction where
  | create (body : String)
  | update (id : Nat) (body : String)
  deriving DecidableEq

/-- The body a publish action carries to the backend. -/
def PublishAction.bodyOf : PublishAction → String
  | .create b => b
  | .update _ b => b

/-- Model of the choice of backend call made by postOrEditComment
(src/index.js lines 67-96): `none` models returning without any call. -/
def postOrEditComment (comments : List Comment) (content : String) (onlyUpdate : Bool) :
    Option PublishAction :=
  match fetchPreviousComment comments with
  | none =>
    if onlyUpdate then none
    else some (PublishAction.create (HEADING ++ content))
  | some previousComment =>
    some (PublishAction.update previousComment.id (HEADING ++ content))

/-- A JavaScript Error as seen by the catch blocks. -/
structure JsError where
  message : String
  stack : String
  deriving DecidableEq

/-- Model of emitErrorNoPermission (src/index.js lines 61-65): the three
console.log lines it emits. -/
def emitErrorNoPermission (pre : String) (error : JsError) : List String :=
  [pre ++ " This can happen on PR\x27s originating from a fork without write permissions.",
   error.message, error.stack]

/-- Execution of the chosen backend call under the try/catch blocks of
src/index.js lines 74-83 and 85-94: a rejection is caught and turned into
the logged lines, never propagated. -/
def execBackendCall (backend : PublishAction → Except JsError Unit) :
    Option PublishAction → Except JsError (List String)
  | none => Except.ok []
  | some act =>
    match backend act with
    | Except.ok _ => Except.ok []
    | Except.error error =>
      match act with
      | PublishAction.create _ =>
        Except.ok (emitErrorNoPermission "Error creating comment." error)
      | PublishAction.update _ _ =>
        Except.ok (emitErrorNoPermission "Error updating comment." error)

/-- Model of executing postOrEditComment including the try/catch around the
backend call (src/index.js lines 67-96): the backend may reject; the result
is the outcome of the whole call together with the lines logged. -/
def postOrEditCommentExec (comments : List Comment) (content : String) (onlyUpdate : Bool)
    (backend : PublishAction → Except JsError Unit) : Except JsError (List String) :=
  execBackendCall backend (postOrEditComment comments content onlyUpdate)

/-- Parsed JSON documents, for modelling readJSON results. -/
inductive JsonValue where
  | null
  | bool (b : Bool)
  | num (q : ℚ)
  | str (s : String)
  | arr (elems : List JsonValue)
  | obj (entries : List (String × JsonValue))

/-- JavaScript truthiness of a parsed JSON value (NaN cannot come out of
JSON.parse, so zero-ness of the rational covers the numeric case). -/
def JsonValue.truthy : JsonValue → Bool
  | .null => false
  | .bool b => b
  | .num q => !(q == 0)
  | .str s => !(s == "")
  | .arr _ => true
  | .obj _ => true

/-- Model of readJSON (src/index.js lines 106-113): parseResult is `some v`
when reading and parsing succeed with document v, `none` on any failure, in
which case the caller-specified default is returned. -/
def readJSON (parseResult : Option JsonValue) (defaultValue : JsonValue) : JsonValue :=
  parseResult.getD defaultValue

/-- Object.entries of the parsed manifest document as the loop header uses
it; the claims only exercise object documents. -/
def jsonEntries : JsonValue → List (String × JsonValue)
  | .obj entries => entries
  | _ => []

/-- The `{ dependencies }` destructuring of one manifest record followed by
its use as an array of dependency-id strings, for well-formed records. -/
def recordDependencies (record : JsonValue) : List String :=
  match record with
  | .obj entries =>
    match List.lookup "dependencies" entries with
    | some (.arr elems) =>
      elems.filterMap fun e => match e with | .str s => some s | _ => none
    | _ => []
  | _ => []

/-- The manifest the run loop consumes, extracted from a parsed document. -/
def toManifest (v : JsonValue) : Manifest :=
  (jsonEntries v).map fun e => (e.1, recordDependencies e.2)

/-- Observable trace of run (src/index.js lines 130-233): whether the early
return on a falsy new manifest fired, the paths the size measurer was
invoked on, the rows that reached reportContent, and whether and in which
mode postOrEditComment was reached. -/
structure RunTrace where
  earlyExit : Bool
  measuredPaths : List String
  rows : List (String × RowData)
  publishCalled : Bool
  onlyUpdate : Bool
  deriving DecidableEq

/-- Model of run (src/index.js lines 130-233).  `onlyUpdate` mirrors
`reportContent.length === 0`, which holds exactly when no row was kept. -/
def runModel (oldParse newParse : Option JsonValue) (fs : Fs) (measure : Measurer)
    (oldAssetsFolder newAssetsFolder : String) : RunTrace :=
  let oldAssetsDoc := readJSON oldParse (JsonValue.obj [])
  let newAssets := readJSON newParse (JsonValue.bool false)
  if !newAssets.truthy then
    ⟨true, [], [], false, false⟩
  else
    let oldAssets := toManifest oldAssetsDoc
    let entries := toManifest newAssets
    let rows := reportRows fs measure oldAssetsFolder newAssetsFolder oldAssets entries
    let measuredPaths := (entries.map fun e =>
      determineAssetPath fs newAssetsFolder e.1 ::
        (match List.lookup e.1 oldAssets with
         | some _ => [determineAssetPath fs oldAssetsFolder e.1]
         | none => [])).flatten
    ⟨false, measuredPaths, rows, true, rows.isEmpty⟩

/-! Helper lemmas about the numeric core. -/

/-- Ceiling of a quotient of naturals, as integer division. -/
lemma ceil_natCast_div (a o : Nat) :
    Int.ceil ((a : ℚ) / (o : ℚ)) = -(-(a : Int) / (o : Int)) := by
  have h1 : Int.ceil ((a : ℚ) / (o : ℚ)) = -Int.floor (-((a : ℚ) / (o : ℚ))) := by
    rw [Int.floor_neg, neg_neg]
  have h2 : -((a : ℚ) / (o : ℚ)) = ((-(a : Int) : ℤ) : ℚ) / ((o : ℕ) : ℚ) := by
    push_cast
    ring
  rw [h1, h2, Rat.floor_intCast_div_natCast]

/-- The raw percentage value is positive when the size grew. -/
lemma valuePos (o n : Nat) (ho : o ≠ 0) (h : o < n) :
    0 < ((n : ℚ) - (o : ℚ)) / (o : ℚ) * 100 := by
  have hoQ : (0 : ℚ) < (o : ℚ) := by exact_mod_cast Nat.pos_of_ne_zero ho
  have hno : (o : ℚ) < (n : ℚ) := by exact_mod_cast h
  apply mul_pos _ (by norm_num : (0 : ℚ) < 100)
  apply div_pos (by linarith) hoQ

/-- The raw percentage value vanishes when the sizes coincide. -/
lemma valueZero (n : Nat) : ((n : ℚ) - (n : ℚ)) / (n : ℚ) * 100 = 0 := by
  rw [sub_self, zero_div, zero_mul]

/-- The raw percentage value is negative when the size shrank. -/
lemma valueNeg (o n : Nat) (h : n < o) :
    ((n : ℚ) - (o : ℚ)) / (o : ℚ) * 100 < 0 := by
  have hoQ : (0 : ℚ) < (o : ℚ) := by
    have : 0 < o := Nat.lt_of_le_of_lt (Nat.zero_le n) h
    exact_mod_cast this
  have hno : (n : ℚ) < (o : ℚ) := by exact_mod_cast h
  apply mul_neg_of_neg_of_pos _ (by norm_num : (0 : ℚ) < 100)
  apply div_neg_of_neg_of_pos (by linarith) hoQ

/-- The common ceiling computation of computePercentageDiff, reduced to
integer arithmetic. -/
lemma ceilAbsValue (o n : Nat) (ho : o ≠ 0) :
    Int.ceil (|((n : ℚ) - (o : ℚ)) / (o : ℚ) * 100| * 100)
      = -(-((((n : Int) - (o : Int)).natAbs * 10000 : Nat) : Int) / (o : Int)) := by
  have hoQ : (0 : ℚ) < (o : ℚ) := by exact_mod_cast Nat.pos_of_ne_zero ho
  have hD : (n : ℚ) - (o : ℚ) = ((((n : Int) - (o : Int)) : ℤ) : ℚ) := by
    push_cast
    ring
  have habsD : |(n : ℚ) - (o : ℚ)| = ((((n : Int) - (o : Int)).natAbs : ℕ) : ℚ) := by
    rw [hD, ← Int.cast_abs, Int.abs_eq_natAbs, Int.cast_natCast]
  have habs : |((n : ℚ) - (o : ℚ)) / (o : ℚ) * 100| * 100
      = (((((n : Int) - (o : Int)).natAbs * 10000 : Nat)) : ℚ) / (o : ℚ) := by
    rw [abs_mul, abs_div, abs_of_pos hoQ, habsD, Nat.cast_mul]
    rw [abs_of_pos (by norm_num : (0 : ℚ) < 100)]
    push_cast
    ring
  rw [habs, ceil_natCast_div]

/-- A nonnegative numerator renders without a sign. -/
lemma formatHundredths_nonneg (c : Int) (h : 0 ≤ c) :
    formatHundredths c = displayHundredths c.toNat := by
  have h2 : c.natAbs = c.toNat := by omega
  unfold formatHundredths
  rw [if_neg (by omega), h2]
  simp

/-- A negated positive numerator renders with a leading minus sign. -/
lemma formatHundredths_negOf (c : Int) (h : 0 < c) :
    formatHundredths (-1 * c) = "-" ++ displayHundredths c.toNat := by
  have h2 : (-1 * c).natAbs = c.toNat := by omega
  unfold formatHundredths
  rw [if_pos (by omega), h2]

/-- computePercentageDiff on a non-zero baseline, characterised by integer
arithmetic via pctNumerator. -/
theorem computePercentageDiff_eq_int (o n : Nat) (ho : o ≠ 0) :
    computePercentageDiff o n =
      if o < n then "+" ++ formatHundredths (pctNumerator o n) ++ "% 🔼"
      else if n = o then formatHundredths (pctNumerator o n) ++ "%"
      else formatHundredths (pctNumerator o n) ++ "% ⬇️" := by
  simp only [computePercentageDiff]
  rw [if_neg ho]
  rcases Nat.lt_trichotomy o n with hlt | heq | hgt
  · have hvpos := valuePos o n ho hlt
    have hDpos : 0 < (n : Int) - (o : Int) := by omega
    have hsign : jsSign (((n : ℚ) - (o : ℚ)) / (o : ℚ) * 100) = 1 := by
      unfold jsSign
      rw [if_pos hvpos]
    have hk : pctNumerator o n
        = -(-((((n : Int) - (o : Int)).natAbs * 10000 : Nat) : Int) / (o : Int)) := by
      simp only [pctNumerator]
      rw [if_pos hDpos]
    rw [if_pos hvpos, if_pos hlt, hsign, one_mul, ceilAbsValue o n ho, hk]
  · subst heq
    rw [valueZero o]
    rw [if_neg (lt_irrefl (0 : ℚ)), if_pos rfl]
    rw [if_neg (lt_irrefl o), if_pos rfl]
    have hk : pctNumerator o o = 0 := by
      simp [pctNumerator]
    have hz : jsSign 0 * Int.ceil (|(0 : ℚ)| * 100) = 0 := by
      simp [jsSign]
    rw [hk, hz]
  · have hvneg := valueNeg o n hgt
    have hDneg : (n : Int) - (o : Int) < 0 := by omega
    have hsign : jsSign (((n : ℚ) - (o : ℚ)) / (o : ℚ) * 100) = -1 := by
      unfold jsSign
      rw [if_neg (not_lt.mpr (le_of_lt hvneg)), if_pos hvneg]
    have hk : pctNumerator o n
        = -(-(-((((n : Int) - (o : Int)).natAbs * 10000 : Nat) : Int) / (o : Int))) := by
      simp only [pctNumerator]
      rw [if_neg (by omega), if_pos hDneg]
    rw [if_neg (not_lt.mpr (le_of_lt hvneg)), if_neg (ne_of_lt hvneg)]
    rw [if_neg (not_lt.mpr (Nat.le_of_lt hgt)), if_neg (Nat.ne_of_lt hgt)]
    rw [hsign, ceilAbsValue o n ho, hk, neg_one_mul]

/-! Claims. -/

/-- Claim C1 counterexample: at S = 0, computeSizeDiff(S, S) does give a
byte delta of 0, but the percentage string is the special-cased
"+100% 🔼", which does not end in a bare percent sign: the source tests
only `oldSize === 0`, not `newSize !== 0`. -/
theorem claim_C1_counterexample :
    ¬ ((computeSizeDiff 0 0).byteDelta = 0 ∧
       jsEndsWith (computeSizeDiff 0 0).percentage "%" = true) := by
  decide

/-- Claim C1 (amended): for every size S, computeSizeDiff(S, S) yields byte
delta 0; for every S > 0 its percentage string is "0%", ending in a bare
percent with no arrow marker; and a row whose sizes coincide and whose
dependency-difference sets are empty is excluded from the report. -/
theorem claim_C1_amended : ∀ S : Nat,
    (computeSizeDiff S S).byteDelta = 0 ∧
    (0 < S → (computeSizeDiff S S).percentage = "0%" ∧
             jsEndsWith (computeSizeDiff S S).percentage "%" = true) ∧
    (∀ r : RowData, r.newSize = r.oldSize → r.added = [] → r.removed = [] →
        includeRow r = false) := by
  intro S
  refine ⟨by simp [computeSizeDiff], ?_, ?_⟩
  · intro hS
    have hper : (computeSizeDiff S S).percentage = "0%" := by
      show computePercentageDiff S S = "0%"
      rw [computePercentageDiff_eq_int S S (Nat.pos_iff_ne_zero.mp hS)]
      rw [if_neg (lt_irrefl S), if_pos rfl]
      have hk : pctNumerator S S = 0 := by simp [pctNumerator]
      rw [hk]
      rfl
    exact ⟨hper, by rw [hper]; decide⟩
  · rintro ⟨added, removed, newSize, oldSize, oldMeasured⟩ h1 h2 h3
    simp only at h1 h2 h3
    subst h1
    subst h2
    subst h3
    simp [includeRow, renderDeps]

/-- Claim C1 amended, witnessed at S = 3 and a concrete unchanged row. -/
theorem claim_C1_amended_witness :
    (computeSizeDiff 3 3).byteDelta = 0 ∧
    (computeSizeDiff 3 3).percentage = "0%" ∧
    includeRow ⟨[], [], 5, 5, true⟩ = false :=
  ⟨(claim_C1_amended 3).1, ((claim_C1_amended 3).2.1 (by decide)).1,
   (claim_C1_amended 3).2.2 ⟨[], [], 5, 5, true⟩ rfl rfl rfl⟩

/-- Claim C2: for every N > 0, computeSizeDiff(0, N) yields the literal
percentage string "+100% 🔼" and a byte delta of +N. -/
theorem claim_C2 : ∀ N : Nat, 0 < N →
    (computeSizeDiff 0 N).byteDelta = (N : Int) ∧
    (computeSizeDiff 0 N).percentage = "+100% 🔼" := by
  intro N _
  constructor
  · show (N : Int) - ((0 : Nat) : Int) = (N : Int)
    simp
  · rfl

/-- Claim C2, witnessed at N = 7. -/
theorem claim_C2_witness :
    (computeSizeDiff 0 7).byteDelta = (7 : Int) ∧
    (computeSizeDiff 0 7).percentage = "+100% 🔼" :=
  claim_C2 7 (by decide)

/-- The exact-rational idealization computePercentageDiff satisfies the
ceiling-of-magnitude formula of the specification on every non-zero
baseline.  The real program computes in binary64 doubles and deviates from
this formula (see claim_C3_counterexample); this lemma is about the
idealization only. -/
lemma computePercentageDiff_eq_spec :
    ∀ oldSize newSize : Nat, oldSize ≠ 0 →
        computePercentageDiff oldSize newSize = computePercentageDiffSpec oldSize newSize := by
  intro o n ho
  have hoQ : (0 : ℚ) < (o : ℚ) := by exact_mod_cast Nat.pos_of_ne_zero ho
  simp only [computePercentageDiff, computePercentageDiffSpec]
  rw [if_neg ho]
  rcases Nat.lt_trichotomy o n with hlt | heq | hgt
  · have hvpos := valuePos o n ho hlt
    have hsign : jsSign (((n : ℚ) - (o : ℚ)) / (o : ℚ) * 100) = 1 := by
      unfold jsSign
      rw [if_pos hvpos]
    rw [if_pos hvpos, if_pos hvpos, hsign, one_mul]
    rw [formatHundredths_nonneg _ (Int.ceil_nonneg (by positivity))]
  · subst heq
    rw [valueZero o]
    rw [if_neg (lt_irrefl (0 : ℚ)), if_pos rfl, if_neg (lt_irrefl (0 : ℚ)), if_pos rfl]
    have hz : jsSign 0 * Int.ceil (|(0 : ℚ)| * 100) = 0 := by simp [jsSign]
    have hc : Int.ceil (|(0 : ℚ)| * 100) = 0 := by simp
    rw [hz, hc]
    rfl
  · have hvneg := valueNeg o n hgt
    have hsign : jsSign (((n : ℚ) - (o : ℚ)) / (o : ℚ) * 100) = -1 := by
      unfold jsSign
      rw [if_neg (not_lt.mpr (le_of_lt hvneg)), if_pos hvneg]
    have hcpos : 0 < Int.ceil (|((n : ℚ) - (o : ℚ)) / (o : ℚ) * 100| * 100) := by
      apply Int.ceil_pos.mpr
      have habs : 0 < |((n : ℚ) - (o : ℚ)) / (o : ℚ) * 100| :=
        abs_pos.mpr (ne_of_lt hvneg)
      exact mul_pos habs (by norm_num)
    rw [if_neg (not_lt.mpr (le_of_lt hvneg)), if_neg (ne_of_lt hvneg)]
    rw [if_neg (not_lt.mpr (le_of_lt hvneg)), if_neg (ne_of_lt hvneg)]
    rw [hsign, formatHundredths_negOf _ hcpos]

set_option maxRecDepth 4000 in
/-- Claim C3 counterexample: at oldSize 100, newSize 107 the program
computes value = (7/100)*100 in binary64 doubles, which rounds to
7.000000000000001, so Math.ceil(Math.abs(value)*100) is 701 and the
program prints "+7.01% 🔼", while the claimed exact ceiling-of-magnitude
formula gives "+7% 🔼": the universally quantified equality of the claim
is false of the program. -/
theorem claim_C3_counterexample :
    jsComputePercentageDiffFP 100 107 = "+7.01% 🔼" ∧
    computePercentageDiffSpec 100 107 = "+7% 🔼" ∧
    jsComputePercentageDiffFP 100 107 ≠ computePercentageDiffSpec 100 107 := by
  have h1 : jsComputePercentageDiffFP 100 107 = "+7.01% 🔼" := by decide
  have h2 : computePercentageDiffSpec 100 107 = "+7% 🔼" := by
    rw [← computePercentageDiff_eq_spec 100 107 (by decide),
      computePercentageDiff_eq_int 100 107 (by decide)]
    decide
  refine ⟨h1, h2, ?_⟩
  rw [h1, h2]
  decide

set_option maxRecDepth 4000 in
/-- Claim C3 (amended): on a non-zero baseline the percentage string is
built from the binary64 double evaluation of raw = (newSize - oldSize) /
oldSize * 100: the double magnitude times 100 (again in doubles) is rounded
up to an integer numerator over 100 and the original sign reapplied,
formatted "+X% 🔼" when raw is positive, "X%" when raw is exactly zero and
"X% ⬇️" when raw is negative; double rounding can perturb the numerator
away from the exact formula (100 → 107 gives "+7.01% 🔼", not "+7%"),
while the quoted examples are unperturbed: 100 → 133 gives +33%,
100 → 101 gives +1%, and a raw magnitude of 12.341 rounds up to 12.35. -/
theorem claim_C3_amended :
    (∀ oldSize newSize : Nat, oldSize ≠ 0 →
        jsComputePercentageDiffFP oldSize newSize =
          if oldSize < newSize then
            "+" ++ formatHundredths (fpPctNumerator oldSize newSize) ++ "% 🔼"
          else if newSize = oldSize then "0%"
          else formatHundredths (fpPctNumerator oldSize newSize) ++ "% ⬇️") ∧
    jsComputePercentageDiffFP 100 133 = "+33% 🔼" ∧
    jsComputePercentageDiffFP 100 101 = "+1% 🔼" ∧
    jsComputePercentageDiffFP 100000 112341 = "+12.35% 🔼" ∧
    jsComputePercentageDiffFP 100 107 = "+7.01% 🔼" := by
  refine ⟨?_, by decide, by decide, by decide, by decide⟩
  intro o n ho
  simp only [jsComputePercentageDiffFP, fpPctNumerator]
  rw [if_neg ho]
  rcases Nat.lt_trichotomy o n with hlt | heq | hgt
  · rw [if_pos (by omega : (0 : Int) < (n : Int) - (o : Int)), if_pos hlt,
      if_pos (by omega : (0 : Int) < (n : Int) - (o : Int))]
  · subst heq
    rw [if_neg (by omega : ¬((0 : Int) < (o : Int) - (o : Int))),
      if_pos (by omega : (o : Int) - (o : Int) = 0), if_neg (lt_irrefl o), if_pos rfl]
  · rw [if_neg (by omega : ¬((0 : Int) < (n : Int) - (o : Int))),
      if_neg (by omega : ¬((n : Int) - (o : Int) = 0)),
      if_neg (Nat.not_lt.mpr (Nat.le_of_lt hgt)), if_neg (Nat.ne_of_lt hgt),
      if_neg (by omega : ¬((0 : Int) < (n : Int) - (o : Int))),
      if_pos (by omega : (n : Int) - (o : Int) < 0)]

/-- Claim C3 amended, witnessed at the perturbed input 100 → 107. -/
theorem claim_C3_amended_witness :
    jsComputePercentageDiffFP 100 107 =
      if 100 < 107 then "+" ++ formatHundredths (fpPctNumerator 100 107) ++ "% 🔼"
      else if 107 = 100 then "0%"
      else formatHundredths (fpPctNumerator 100 107) ++ "% ⬇️" :=
  claim_C3_amended.1 100 107 (by decide)

/-- A string is empty exactly when its length vanishes. -/
lemma strLength_eq_zero (s : String) : s.length = 0 ↔ s = "" := by
  rcases s with ⟨data⟩
  constructor
  · intro h
    have hd : data = [] := List.length_eq_zero.mp h
    subst hd
    decide
  · intro h
    rw [h]
    decide

/-- The rendered dependency cell is empty exactly for an empty list. -/
lemma renderDeps_length_eq_zero (l : List String) : (renderDeps l).length = 0 ↔ l = [] := by
  cases l with
  | nil => simp [renderDeps]
  | cons a t =>
    have hne : ¬((a :: t).length = 0) := by simp
    simp only [renderDeps, if_neg hne]
    constructor
    · intro h
      exfalso
      rw [String.length_append, String.length_append] at h
      have h1 : ("`" : String).length = 1 := rfl
      rw [h1] at h
      omega
    · intro h
      simp at h

/-- Claim C4: a row is kept exactly when the new size differs from the old
size, or the added set is non-empty, or the removed set is non-empty; and
the report consists exactly of the kept rows of the artifacts of the new
manifest, in order. -/
theorem claim_C4 :
    (∀ r : RowData, includeRow r = true ↔
        (r.newSize ≠ r.oldSize ∨ r.added ≠ [] ∨ r.removed ≠ [])) ∧
    (∀ (fs : Fs) (measure : Measurer) (oldAssetsFolder newAssetsFolder : String)
        (oldAssets newEntries : Manifest),
        reportRows fs measure oldAssetsFolder newAssetsFolder oldAssets newEntries =
          (newEntries.map fun e =>
              (e.1, computeRow fs measure oldAssetsFolder newAssetsFolder oldAssets e.1 e.2)).filter
            fun q => includeRow q.2) := by
  constructor
  · intro r
    simp only [includeRow, Bool.not_eq_true', Bool.and_eq_false_iff, beq_eq_false_iff_ne,
      ne_eq, renderDeps_length_eq_zero]
    tauto
  · intro fs measure oldAssetsFolder newAssetsFolder oldAssets newEntries
    induction newEntries with
    | nil => rfl
    | cons e t ih =>
      simp only [reportRows, List.filterMap_cons, List.map_cons, List.filter_cons] at *
      by_cases h : includeRow (computeRow fs measure oldAssetsFolder newAssetsFolder oldAssets e.1 e.2) = true
      · simp [h, ih]
      · simp only [Bool.not_eq_true] at h
        simp [h, ih]

/-- computeRow on an artifact absent from the old manifest. -/
lemma computeRow_lookup_none (fs : Fs) (measure : Measurer)
    (oldAssetsFolder newAssetsFolder : String) (oldAssets : Manifest)
    (asset : String) (dependencies : List String)
    (h : List.lookup asset oldAssets = none) :
    computeRow fs measure oldAssetsFolder newAssetsFolder oldAssets asset dependencies =
      ⟨dependencies.filter (fun dependency => !(([] : List String).contains dependency)),
       [],
       measure (determineAssetPath fs newAssetsFolder asset), 0, false⟩ := by
  simp only [computeRow, h, Option.getD_none]
  rfl

/-- computeRow on an artifact present in the old manifest. -/
lemma computeRow_lookup_some (fs : Fs) (measure : Measurer)
    (oldAssetsFolder newAssetsFolder : String) (oldAssets : Manifest)
    (asset : String) (dependencies oldDependencies : List String)
    (h : List.lookup asset oldAssets = some oldDependencies) :
    computeRow fs measure oldAssetsFolder newAssetsFolder oldAssets asset dependencies =
      ⟨dependencies.filter (fun dependency => !(oldDependencies.contains dependency)),
       oldDependencies.filter (fun dependency => !(dependencies.contains dependency)),
       measure (determineAssetPath fs newAssetsFolder asset),
       measure (determineAssetPath fs oldAssetsFolder asset), true⟩ := by
  simp only [computeRow, h, Option.getD_some]

/-- Claim C5: for an artifact absent from the old manifest, the old size is
exactly 0 with the measurer never invoked on the old side, the added set is
the full new dependency list of the artifact, and the removed set is empty. -/
theorem claim_C5 : ∀ (fs : Fs) (measure : Measurer)
    (oldAssetsFolder newAssetsFolder : String) (oldAssets : Manifest)
    (asset : String) (dependencies : List String),
    List.lookup asset oldAssets = none →
    (computeRow fs measure oldAssetsFolder newAssetsFolder oldAssets asset dependencies).oldSize
        = 0 ∧
    (computeRow fs measure oldAssetsFolder newAssetsFolder oldAssets asset
        dependencies).oldMeasured = false ∧
    (computeRow fs measure oldAssetsFolder newAssetsFolder oldAssets asset dependencies).added
        = dependencies ∧
    (computeRow fs measure oldAssetsFolder newAssetsFolder oldAssets asset dependencies).removed
        = [] := by
  intro fs measure oldAssetsFolder newAssetsFolder oldAssets asset dependencies h
  rw [computeRow_lookup_none fs measure oldAssetsFolder newAssetsFolder oldAssets asset
    dependencies h]
  refine ⟨rfl, rfl, ?_, rfl⟩
  simp

/-- Claim C5, witnessed at a concrete artifact missing from an empty old
manifest. -/
theorem claim_C5_witness :
    (computeRow (fun _ => none) (fun _ => 0) "old" "new" [] "a" ["x"]).oldSize = 0 ∧
    (computeRow (fun _ => none) (fun _ => 0) "old" "new" [] "a" ["x"]).oldMeasured = false ∧
    (computeRow (fun _ => none) (fun _ => 0) "old" "new" [] "a" ["x"]).added = ["x"] ∧
    (computeRow (fun _ => none) (fun _ => 0) "old" "new" [] "a" ["x"]).removed = [] :=
  claim_C5 (fun _ => none) (fun _ => 0) "old" "new" [] "a" ["x"] rfl

/-- Claim C6: for an artifact present in both manifests, added is the new
dependency list filtered to elements absent from the old list (an
order-preserving sublist of the new list), removed is the old list filtered
to elements absent from the new list (an order-preserving sublist of the
old list); on new [x, y] against old [y, z] this gives added [x] and
removed [z]. -/
theorem claim_C6 :
    (∀ (fs : Fs) (measure : Measurer) (oldAssetsFolder newAssetsFolder : String)
        (oldAssets : Manifest) (asset : String) (dependencies oldDependencies : List String),
        List.lookup asset oldAssets = some oldDependencies →
        (computeRow fs measure oldAssetsFolder newAssetsFolder oldAssets asset
              dependencies).added
            = dependencies.filter (fun d => !(oldDependencies.contains d)) ∧
        (computeRow fs measure oldAssetsFolder newAssetsFolder oldAssets asset
              dependencies).added.Sublist dependencies ∧
        (∀ d, d ∈ (computeRow fs measure oldAssetsFolder newAssetsFolder oldAssets asset
              dependencies).added ↔ d ∈ dependencies ∧ d ∉ oldDependencies) ∧
        (computeRow fs measure oldAssetsFolder newAssetsFolder oldAssets asset
              dependencies).removed
            = oldDependencies.filter (fun d => !(dependencies.contains d)) ∧
        (computeRow fs measure oldAssetsFolder newAssetsFolder oldAssets asset
              dependencies).removed.Sublist oldDependencies ∧
        (∀ d, d ∈ (computeRow fs measure oldAssetsFolder newAssetsFolder oldAssets asset
              dependencies).removed ↔ d ∈ oldDependencies ∧ d ∉ dependencies)) ∧
    (computeRow (fun _ => none) (fun _ => 0) "old" "new" [("A", ["y", "z"])] "A"
        ["x", "y"]).added = ["x"] ∧
    (computeRow (fun _ => none) (fun _ => 0) "old" "new" [("A", ["y", "z"])] "A"
        ["x", "y"]).removed = ["z"] := by
  refine ⟨?_, by decide, by decide⟩
  intro fs measure oldAssetsFolder newAssetsFolder oldAssets asset dependencies oldDependencies h
  rw [computeRow_lookup_some fs measure oldAssetsFolder newAssetsFolder oldAssets asset
    dependencies oldDependencies h]
  refine ⟨rfl, List.filter_sublist _, ?_, rfl, List.filter_sublist _, ?_⟩
  · intro d
    simp [List.mem_filter]
  · intro d
    simp [List.mem_filter]

/-- Claim C6, witnessed: the general filter characterisation applied at the
concrete example manifests. -/
theorem claim_C6_witness :
    (computeRow (fun _ => none) (fun _ => 0) "old" "new" [("A", ["y", "z"])] "A"
        ["x", "y"]).added
      = ["x", "y"].filter (fun d => !(["y", "z"].contains d)) :=
  (claim_C6.1 (fun _ => none) (fun _ => 0) "old" "new" [("A", ["y", "z"])] "A"
      ["x", "y"] ["y", "z"] rfl).1

/-- Claim C7: the resolved asset path is the sibling stylesheet path exactly
when the artifact name ends with the style-shim suffix, the shim file is
empty or absent, and the sibling stylesheet exists non-empty; in every
other case it is the plain joined script path, whether or not that file
exists. -/
theorem claim_C7 : ∀ (fs : Fs) (assetsFolder jsAsset : String),
    determineAssetPath fs assetsFolder jsAsset =
      if styleFallbackCond fs assetsFolder jsAsset
      then cssSiblingPath (pathJoin assetsFolder jsAsset)
      else pathJoin assetsFolder jsAsset := by
  intro fs assetsFolder jsAsset
  simp only [determineAssetPath]
  by_cases h1 : jsEndsWith jsAsset "-style.js" = true
  · rw [if_pos h1]
    by_cases h2 : (readFileD fs (pathJoin assetsFolder jsAsset) "").length = 0
    · rw [if_pos h2]
      rw [strLength_eq_zero] at h2
      by_cases h3 :
          (readFileD fs (cssSiblingPath (pathJoin assetsFolder jsAsset)) "").length > 0
      · rw [if_pos h3]
        have h3ne : readFileD fs (cssSiblingPath (pathJoin assetsFolder jsAsset)) "" ≠ "" := by
          intro hcon
          rw [← strLength_eq_zero] at hcon
          omega
        rw [if_pos ⟨h1, h2, h3ne⟩]
      · rw [if_neg h3]
        have h3eq : readFileD fs (cssSiblingPath (pathJoin assetsFolder jsAsset)) "" = "" := by
          rw [← strLength_eq_zero]
          omega
        rw [if_neg (fun hc => hc.2.2 h3eq)]
    · rw [if_neg h2]
      have h2ne : readFileD fs (pathJoin assetsFolder jsAsset) "" ≠ "" := by
        intro hcon
        rw [← strLength_eq_zero] at hcon
        exact h2 hcon
      rw [if_neg (fun hc => h2ne hc.2.1)]
  · rw [if_neg h1]
    rw [if_neg (fun hc => h1 hc.1)]

/-- A string extended on the right still starts with itself. -/
lemma jsStartsWith_append (a b : String) : jsStartsWith (a ++ b) a = true := by
  simp only [jsStartsWith, String.data_append]
  rw [List.isPrefixOf_iff_prefix]
  exact List.prefix_append _ _

/-- A successful find? splits the list at the first match. -/
lemma find?_decomp {α : Type} (p : α → Bool) (l : List α) (c : α)
    (h : l.find? p = some c) :
    ∃ pre post, l = pre ++ c :: post ∧ ∀ x ∈ pre, p x = false := by
  induction l with
  | nil => cases h
  | cons a t ih =>
    rw [List.find?_cons] at h
    cases hpa : p a with
    | true =>
      rw [hpa] at h
      simp only at h
      cases h
      exact ⟨[], t, rfl, by simp⟩
    | false =>
      rw [hpa] at h
      simp only at h
      obtain ⟨pre, post, ht, hall⟩ := ih h
      refine ⟨a :: pre, post, by simp [ht], ?_⟩
      intro x hx
      rcases List.mem_cons.mp hx with hx | hx
      · rw [hx]
        exact hpa
      · exact hall x hx

/-- Claim C8: the publisher selects the first comment (in listing order)
whose body starts with the fixed heading; a found comment is updated in
place, otherwise a comment is created unless onlyUpdate suppresses it, and
every body it hands to the backend begins with the heading. -/
theorem claim_C8 : ∀ (comments : List Comment) (content : String) (onlyUpdate : Bool),
    (∀ c, fetchPreviousComment comments = some c →
        c ∈ comments ∧ jsStartsWith c.body HEADING = true ∧
        ∃ pre post, comments = pre ++ c :: post ∧
          ∀ c2 ∈ pre, jsStartsWith c2.body HEADING = false) ∧
    (fetchPreviousComment comments = none →
        ∀ c ∈ comments, jsStartsWith c.body HEADING = false) ∧
    (∀ c, fetchPreviousComment comments = some c →
        postOrEditComment comments content onlyUpdate
          = some (PublishAction.update c.id (HEADING ++ content))) ∧
    (fetchPreviousComment comments = none → onlyUpdate = false →
        postOrEditComment comments content onlyUpdate
          = some (PublishAction.create (HEADING ++ content))) ∧
    (fetchPreviousComment comments = none → onlyUpdate = true →
        postOrEditComment comments content onlyUpdate = none) ∧
    (∀ act, postOrEditComment comments content onlyUpdate = some act →
        jsStartsWith act.bodyOf HEADING = true) := by
  intro comments content onlyUpdate
  refine ⟨?_, ?_, ?_, ?_, ?_, ?_⟩
  · intro c h
    unfold fetchPreviousComment at h
    refine ⟨List.mem_of_find?_eq_some h, ?_, find?_decomp _ _ _ h⟩
    simpa using List.find?_some h
  · intro h c hc
    unfold fetchPreviousComment at h
    simpa using List.find?_eq_none.mp h c hc
  · intro c h
    simp only [postOrEditComment, h]
  · intro h hou
    subst hou
    simp [postOrEditComment, h]
  · intro h hou
    subst hou
    simp [postOrEditComment, h]
  · intro act h
    have hb : act.bodyOf = HEADING ++ content := by
      unfold postOrEditComment at h
      cases hf : fetchPreviousComment comments with
      | none =>
        rw [hf] at h
        cases hou : onlyUpdate with
        | true =>
          rw [hou] at h
          simp at h
        | false =>
          rw [hou] at h
          simp only [if_neg Bool.false_ne_true] at h
          cases h
          rfl
      | some pc =>
        rw [hf] at h
        cases h
        rfl
    rw [hb]
    exact jsStartsWith_append HEADING content

/-- Claim C8, witnessed: on a thread where the second comment carries the
heading, publishing updates that comment in place. -/
theorem claim_C8_witness :
    postOrEditComment [⟨5, "unrelated"⟩, ⟨7, HEADING ++ "old report"⟩] "new report" false
      = some (PublishAction.update 7 (HEADING ++ "new report")) :=
  (claim_C8 [⟨5, "unrelated"⟩, ⟨7, HEADING ++ "old report"⟩] "new report" false).2.2.1
    ⟨7, HEADING ++ "old report"⟩ (by decide)

/-- The publish execution when no backend call is made. -/
lemma postOrEditCommentExec_none (comments : List Comment) (content : String)
    (onlyUpdate : Bool) (backend : PublishAction → Except JsError Unit)
    (h : postOrEditComment comments content onlyUpdate = none) :
    postOrEditCommentExec comments content onlyUpdate backend = Except.ok [] := by
  unfold postOrEditCommentExec
  rw [h]
  rfl

/-- The publish execution once the backend call is fixed. -/
lemma postOrEditCommentExec_some (comments : List Comment) (content : String)
    (onlyUpdate : Bool) (backend : PublishAction → Except JsError Unit)
    (act : PublishAction)
    (h : postOrEditComment comments content onlyUpdate = some act) :
    postOrEditCommentExec comments content onlyUpdate backend =
      execBackendCall backend (some act) := by
  unfold postOrEditCommentExec
  rw [h]

/-- Claim C9: a backend failure during the create or update call is caught:
the publish step always returns successfully, and on failure it logs the
descriptive hint together with the message and stack trace of the error. -/
theorem claim_C9 : ∀ (comments : List Comment) (content : String) (onlyUpdate : Bool)
    (backend : PublishAction → Except JsError Unit),
    (∃ logs, postOrEditCommentExec comments content onlyUpdate backend = Except.ok logs) ∧
    (∀ id body error,
        postOrEditComment comments content onlyUpdate = some (PublishAction.update id body) →
        backend (PublishAction.update id body) = Except.error error →
        postOrEditCommentExec comments content onlyUpdate backend
          = Except.ok (emitErrorNoPermission "Error updating comment." error)) ∧
    (∀ body error,
        postOrEditComment comments content onlyUpdate = some (PublishAction.create body) →
        backend (PublishAction.create body) = Except.error error →
        postOrEditCommentExec comments content onlyUpdate backend
          = Except.ok (emitErrorNoPermission "Error creating comment." error)) := by
  intro comments content onlyUpdate backend
  refine ⟨?_, ?_, ?_⟩
  · cases hpc : postOrEditComment comments content onlyUpdate with
    | none => exact ⟨[], postOrEditCommentExec_none comments content onlyUpdate backend hpc⟩
    | some act =>
      rw [postOrEditCommentExec_some comments content onlyUpdate backend act hpc]
      cases hb : backend act with
      | ok u => exact ⟨[], by simp [execBackendCall, hb]⟩
      | error e =>
        cases act with
        | create b =>
          exact ⟨emitErrorNoPermission "Error creating comment." e,
            by simp [execBackendCall, hb]⟩
        | update i b =>
          exact ⟨emitErrorNoPermission "Error updating comment." e,
            by simp [execBackendCall, hb]⟩
  · intro id body error hpc hberr
    rw [postOrEditCommentExec_some comments content onlyUpdate backend _ hpc]
    simp [execBackendCall, hberr]
  · intro body error hpc hberr
    rw [postOrEditCommentExec_some comments content onlyUpdate backend _ hpc]
    simp [execBackendCall, hberr]

/-- Claim C9, witnessed: a backend that rejects the create call still lets
the publish step return successfully with the three logged lines. -/
theorem claim_C9_witness :
    postOrEditCommentExec [] "report" false (fun _ => Except.error ⟨"denied", "trace"⟩)
      = Except.ok (emitErrorNoPermission "Error creating comment." ⟨"denied", "trace"⟩) :=
  (claim_C9 [] "report" false (fun _ => Except.error ⟨"denied", "trace"⟩)).2.2
    (HEADING ++ "report") ⟨"denied", "trace"⟩ rfl rfl

/-- Claim C10: whenever the loaded new manifest is falsy — the default false
on a read or parse failure, or a parsed falsy document such as null, false
or 0 — the run exits early and successfully with no size measurement and no
comment call; a new manifest parsing to the empty object does not trigger
the early exit and reaches the publish step with an empty row set. -/
theorem claim_C10 : ∀ (oldParse : Option JsonValue) (fs : Fs) (measure : Measurer)
    (oldAssetsFolder newAssetsFolder : String),
    (∀ newParse, (readJSON newParse (JsonValue.bool false)).truthy = false →
        runModel oldParse newParse fs measure oldAssetsFolder newAssetsFolder
          = ⟨true, [], [], false, false⟩) ∧
    ((readJSON none (JsonValue.bool false)).truthy = false ∧
      JsonValue.null.truthy = false ∧
      (JsonValue.bool false).truthy = false ∧
      (JsonValue.num 0).truthy = false) ∧
    (runModel oldParse (some (JsonValue.obj [])) fs measure oldAssetsFolder
        newAssetsFolder).earlyExit = false ∧
    (runModel oldParse (some (JsonValue.obj [])) fs measure oldAssetsFolder
        newAssetsFolder).publishCalled = true ∧
    (runModel oldParse (some (JsonValue.obj [])) fs measure oldAssetsFolder
        newAssetsFolder).rows = [] := by
  intro oldParse fs measure oldAssetsFolder newAssetsFolder
  refine ⟨?_, ⟨rfl, rfl, rfl, by decide⟩, rfl, rfl, rfl⟩
  intro newParse h
  simp [runModel, h]

/-- Claim C10, witnessed: a new manifest that parses to JSON null makes the
run exit early with nothing measured and nothing published. -/
theorem claim_C10_witness :
    runModel none (some JsonValue.null) (fun _ => none) (fun _ => 0) "old" "new"
      = ⟨true, [], [], false, false⟩ :=
  (claim_C10 none (fun _ => none) (fun _ => 0) "old" "new").1 (some JsonValue.null) rfl

end WPDepReport
